import Mathlib

/-
Verification development for the Tyk phantom-token gRPC plugin
(curityio/tyk-phantom-token-plugin, src/plugin/main.go).

The Go source is shallowly embedded as executable Lean definitions:
  - instants (time.Time) and durations are modelled as Int seconds;
  - Go maps (map[string]string, map[string]cacheEntry) are modelled as
    association lists with unique keys; assignment replaces the binding,
    delete removes it; Go map iteration order is unspecified, the model
    fixes the list order (no proved claim depends on the order);
  - nil-able pointers and nil maps are modelled with Option;
  - a nil-pointer dereference (a Go panic) is modelled by returning none.
-/

set_option autoImplicit false

namespace PhantomToken

/-- A cached upstream JWT together with its expiry instant (cacheEntry in main.go). -/
structure CacheEntry where
  JWT : String
  Expires : Int
deriving DecidableEq

/-- The jwtCache data map (map[string]cacheEntry), as an association list with unique keys. -/
abbrev CacheState := List (String × CacheEntry)

/-- Go map read: first binding of the key, if any. -/
def mapLookup (m : CacheState) (k : String) : Option CacheEntry :=
  m.lookup k

/-- Go delete(m, k): remove the binding of k. -/
def mapDelete (m : CacheState) (k : String) : CacheState :=
  m.filter (fun p => p.1 != k)

/-- Go map assignment m[k] = v: replace the binding of k (modelled as prepend after removal). -/
def mapInsert (m : CacheState) (k : String) (v : CacheEntry) : CacheState :=
  (k, v) :: mapDelete m k

namespace jwtCache

/-- jwtCache.get (main.go lines 78-93): return the entry if present and not
expired at the call instant; an expired entry found by the lookup is deleted.
The third component is the cache state after the call. -/
def get (m : CacheState) (now : Int) (key : String) : String × Bool × CacheState :=
  match mapLookup m key with
  | none => ("", false, m)
  | some ce =>
    if now > ce.Expires then ("", false, mapDelete m key)
    else (ce.JWT, true, m)

/-- jwtCache.set (main.go lines 95-101): insert only if now + clockSkew is
strictly before exp; otherwise a silent no-op. -/
def set (skew : Int) (m : CacheState) (now : Int) (key jwt : String) (exp : Int) : CacheState :=
  if now + skew < exp then mapInsert m key ⟨jwt, exp⟩ else m

/-- jwtCache.purgeExpired (main.go lines 103-112): delete every entry whose
expiry has passed. -/
def purgeExpired (now : Int) (m : CacheState) : CacheState :=
  m.filter (fun p => !(now > p.2.Expires))

/-- The first-pass eviction predicate of enforceCap (main.go line 139): the
entry is already expired or within the 2-minute grace window of expiring. -/
def nearlyDead (now : Int) (e : CacheEntry) : Bool :=
  !(e.Expires > now) || (e.Expires - now < 120)

/-- One bounded eviction scan of enforceCap: walk the entries, deleting those
satisfying p until the budget is exhausted. Returns the surviving entries and
the number deleted. -/
def evictPass (p : String × CacheEntry → Bool) : Nat → CacheState → CacheState × Nat
  | 0, l => (l, 0)
  | _ + 1, [] => ([], 0)
  | b + 1, x :: xs =>
    if p x then
      let r := evictPass p b xs
      (r.1, r.2 + 1)
    else
      let r := evictPass p (b + 1) xs
      (x :: r.1, r.2)

/-- jwtCache.enforceCap (main.go lines 114-152): when the entry count exceeds
cacheMax (and cacheMax is positive), delete n - cacheMax entries, preferring
nearly-dead ones, then arbitrary remaining ones. -/
def enforceCap (cacheMax : Int) (now : Int) (m : CacheState) : CacheState :=
  if cacheMax ≤ 0 then m
  else if (m.length : Int) ≤ cacheMax then m
  else
    let toDrop := ((m.length : Int) - cacheMax).toNat
    let r1 := evictPass (fun p => nearlyDead now p.2) toDrop m
    (evictPass (fun _ => true) (toDrop - r1.2) r1.1).1

end jwtCache

/-- Digit run parsed as a Nat, for goAtoi. -/
def digitsVal (l : List Char) : Option Nat :=
  if l = [] ∨ ¬ l.all Char.isDigit then none
  else some (l.foldl (fun n c => n * 10 + (c.toNat - 48)) 0)

/-- strconv.Atoi: optional sign followed by at least one digit (the int64
range check is not modelled; no claim exercises it). -/
def goAtoi (s : String) : Option Int :=
  match s.toList with
  | '+' :: ds => (digitsVal ds).map (fun n => (n : Int))
  | '-' :: ds => (digitsVal ds).map (fun n => -(n : Int))
  | ds => (digitsVal ds).map (fun n => (n : Int))

/-- intFromEnv (main.go lines 181-191): v is the os.Getenv result; empty,
unparseable or negative values fall back to the default. -/
def intFromEnv (v : String) (defv : Int) : Int :=
  if v = "" then defv
  else
    match goAtoi v with
    | none => defv
    | some i => if i < 0 then defv else i

/-- cacheMax (main.go line 46): intFromEnv of CACHE_MAX_ENTRIES with default 10000. -/
def cacheMaxOf (v : String) : Int :=
  intFromEnv v 10000

/-- The whitespace class of RE2 s-escapes: tab, newline, form feed, carriage
return and space. -/
def reSpace (c : Char) : Bool :=
  c = '\t' || c = '\n' || c = '\x0c' || c = '\r' || c = ' '

/-- unicode.IsSpace restricted to the ASCII range (strings.TrimSpace); the
inputs of the proved claims contain no non-ASCII whitespace. -/
def goSpace (c : Char) : Bool :=
  reSpace c || c = '\x0b'

/-- strings.TrimSpace on a character list. -/
def trimSpaceList (l : List Char) : List Char :=
  ((l.dropWhile goSpace).reverse.dropWhile goSpace).reverse

/-- strings.TrimSpace. -/
def goTrimSpace (s : String) : String :=
  String.mk (trimSpaceList s.toList)

/-- Lower-case an ASCII letter, for the case-insensitive regex match. -/
def lowerAscii (c : Char) : Char :=
  if 'A' ≤ c ∧ c ≤ 'Z' then Char.ofNat (c.toNat + 32) else c

/-- Length of the run matchable by a dot in RE2: characters up to the first
newline. -/
def dotRun (l : List Char) : Nat :=
  (l.takeWhile (fun c => c ≠ '\n')).length

/-- Greedy submatch of the tail pattern dot-plus then s-star at end of text:
try the capture length i descending, accepting when the remainder is all
whitespace. -/
def dotPlusSpaceStar (l : List Char) : Nat → Option (List Char)
  | 0 => none
  | i + 1 =>
    if (l.drop (i + 1)).all reSpace then some (l.take (i + 1))
    else dotPlusSpaceStar l i

/-- Greedy-with-backtracking s-plus: consume j whitespace characters (largest
first) and hand the remainder to the capture pattern. -/
def spacePlusThen (l : List Char) : Nat → Option (List Char)
  | 0 => none
  | j + 1 =>
    match dotPlusSpaceStar (l.drop (j + 1)) (dotRun (l.drop (j + 1))) with
    | some g => some g
    | none => spacePlusThen l j

/-- The capture group of bearerRe (main.go line 41), a case-insensitive
anchored match of optional whitespace, the word Bearer, whitespace, then the
captured token text; none when the header does not match. -/
def bearerGroup (l : List Char) : Option (List Char) :=
  let l1 := l.dropWhile reSpace
  if (l1.take 6).map lowerAscii = ['b', 'e', 'a', 'r', 'e', 'r'] then
    let rest := l1.drop 6
    spacePlusThen rest (rest.takeWhile reSpace).length
  else none

/-- extractBearer (main.go lines 198-207): empty input or no regex match
yields the empty string; otherwise the captured group, whitespace-trimmed. -/
def extractBearer (h : String) : String :=
  if h = "" then ""
  else
    match bearerGroup h.toList with
    | none => ""
    | some g => String.mk (trimSpaceList g)

/-- countDots (main.go lines 388-396). -/
def countDots (s : String) : Nat :=
  (s.toList.filter (fun c => c = '.')).length

/-- Value of one base64url alphabet character. -/
def b64Val (c : Char) : Option Nat :=
  if 'A' ≤ c ∧ c ≤ 'Z' then some (c.toNat - 65)
  else if 'a' ≤ c ∧ c ≤ 'z' then some (c.toNat - 97 + 26)
  else if '0' ≤ c ∧ c ≤ '9' then some (c.toNat - 48 + 52)
  else if c = '-' then some 62
  else if c = '_' then some 63
  else none

/-- base64.RawURLEncoding.DecodeString (unpadded base64url) to a byte list.
A trailing group of one character is an error, as in Go; leftover low bits of
a final partial group are discarded (Go default, non-strict decoding). -/
def b64Decode : List Char → Option (List Nat)
  | [] => some []
  | [_] => none
  | [a, b] => do
    let va ← b64Val a
    let vb ← b64Val b
    pure [va * 4 + vb / 16]
  | [a, b, c] => do
    let va ← b64Val a
    let vb ← b64Val b
    let vc ← b64Val c
    pure [va * 4 + vb / 16, (vb % 16) * 16 + vc / 4]
  | a :: b :: c :: d :: rest => do
    let va ← b64Val a
    let vb ← b64Val b
    let vc ← b64Val c
    let vd ← b64Val d
    let tl ← b64Decode rest
    pure ([va * 4 + vb / 16, (vb % 16) * 16 + vc / 4, (vc % 4) * 64 + vd] ++ tl)

/-- A decoded JSON value as produced by json.Unmarshal into interface values:
numbers become num (Go float64; the claims only exercise integer values, so
the model carries an Int), strings become str, objects become field lists
(later duplicate keys win, as in a Go map built by the decoder). -/
inductive Json where
  | null
  | bool (b : Bool)
  | num (n : Int)
  | str (s : String)
  | arr (xs : List Json)
  | obj (fields : List (String × Json))

/-- JSON insignificant whitespace. -/
def jsonWs (c : Char) : Bool :=
  c = ' ' || c = '\t' || c = '\n' || c = '\r'

/-- Skip JSON insignificant whitespace. -/
def skipWs (l : List Char) : List Char :=
  l.dropWhile jsonWs

/-- One-character JSON string escapes (the u-escape is outside the modelled
fragment; no claim input uses it). -/
def escChar (c : Char) : Option Char :=
  if c = '"' then some '"'
  else if c = '\\' then some '\\'
  else if c = '/' then some '/'
  else if c = 'b' then some '\x08'
  else if c = 'f' then some '\x0c'
  else if c = 'n' then some '\n'
  else if c = 'r' then some '\r'
  else if c = 't' then some '\t'
  else none

/-- Parse the body of a JSON string after the opening quote; returns the
content and the remainder after the closing quote. -/
def parseJStr : List Char → Option (List Char × List Char)
  | [] => none
  | '"' :: cs => some ([], cs)
  | '\\' :: e :: cs => do
    let c ← escChar e
    let r ← parseJStr cs
    pure (c :: r.1, r.2)
  | c :: cs => do
    let r ← parseJStr cs
    pure (c :: r.1, r.2)

/-- Parse a maximal run of at least one digit as a Nat. -/
def parseDigits (l : List Char) : Option (Nat × List Char) :=
  let ds := l.takeWhile Char.isDigit
  if ds = [] then none
  else some (ds.foldl (fun n c => n * 10 + (c.toNat - 48)) 0, l.dropWhile Char.isDigit)

/-- Parse a JSON number of the integer fragment (optional minus then digits;
fractions and exponents are outside the modelled fragment, no claim input
uses them). -/
def parseNum : List Char → Option (Json × List Char)
  | '-' :: cs => (parseDigits cs).map (fun r => (Json.num (-(r.1 : Int)), r.2))
  | cs => (parseDigits cs).map (fun r => (Json.num (r.1 : Int), r.2))

mutual

/-- Parse one JSON value; the fuel bounds the recursion depth and is chosen
larger than the input length at the top-level entry. -/
def parseVal : Nat → List Char → Option (Json × List Char)
  | 0, _ => none
  | f + 1, input =>
    match skipWs input with
    | '"' :: cs => (parseJStr cs).map (fun r => (Json.str (String.mk r.1), r.2))
    | '\x7b' :: cs =>
      match skipWs cs with
      | '\x7d' :: r => some (Json.obj [], r)
      | cs2 => (parseFields f cs2).map (fun r => (Json.obj r.1, r.2))
    | '[' :: cs =>
      match skipWs cs with
      | ']' :: r => some (Json.arr [], r)
      | cs2 => (parseItems f cs2).map (fun r => (Json.arr r.1, r.2))
    | 't' :: 'r' :: 'u' :: 'e' :: cs => some (Json.bool true, cs)
    | 'f' :: 'a' :: 'l' :: 's' :: 'e' :: cs => some (Json.bool false, cs)
    | 'n' :: 'u' :: 'l' :: 'l' :: cs => some (Json.null, cs)
    | cs => parseNum cs

/-- Parse the fields of a JSON object, positioned at the first key. -/
def parseFields : Nat → List Char → Option (List (String × Json) × List Char)
  | 0, _ => none
  | f + 1, input =>
    match skipWs input with
    | '"' :: cs => do
      let (k, r1) ← parseJStr cs
      match skipWs r1 with
      | ':' :: r2 => do
        let (v, r3) ← parseVal f r2
        match skipWs r3 with
        | ',' :: r4 => do
          let (fs, r5) ← parseFields f r4
          pure ((String.mk k, v) :: fs, r5)
        | '\x7d' :: r4 => pure ([(String.mk k, v)], r4)
        | _ => none
      | _ => none
    | _ => none

/-- Parse the items of a JSON array, positioned at the first item. -/
def parseItems : Nat → List Char → Option (List Json × List Char)
  | 0, _ => none
  | f + 1, input => do
    let (v, r1) ← parseVal f input
    match skipWs r1 with
    | ',' :: r2 => do
      let (vs, r3) ← parseItems f r2
      pure (v :: vs, r3)
    | ']' :: r2 => pure ([v], r2)
    | _ => none

end

/-- json.Unmarshal of a byte sequence into map[string]any: the whole input
must be a single JSON object followed only by whitespace. Payload bytes are
mapped one-to-one to characters (claim inputs are ASCII). -/
def jsonUnmarshalMap (bytes : List Nat) : Option (List (String × Json)) :=
  let cs := bytes.map Char.ofNat
  match parseVal (cs.length + 2) cs with
  | some (Json.obj fields, rest) => if skipWs rest = [] then some fields else none
  | _ => none

/-- Go map read built by the JSON decoder: for duplicate keys the later
binding wins. -/
def lookupLast (l : List (String × Json)) (k : String) : Option Json :=
  l.foldl (fun acc p => if p.1 = k then some p.2 else acc) none

/-- strings.Split on a single dot separator, over the character list. -/
def splitOnDot : List Char → List (List Char)
  | [] => [[]]
  | '.' :: cs => [] :: splitOnDot cs
  | c :: cs =>
    match splitOnDot cs with
    | [] => [[c]]
    | h :: t => (c :: h) :: t

/-- parseJWTExp (main.go lines 209-238): split on dots, base64url-decode the
middle segment, JSON-decode it, read the exp claim. A number is accepted
(int64 truncation of the float64; integer fragment modelled); any other value
shape is the unsupported-type error. The json.Number branch of the source is
unreachable under plain json.Unmarshal and has no counterpart here. The
result is the Unix instant in seconds. -/
def parseJWTExp (jwt : String) : Except String Int :=
  match splitOnDot jwt.toList with
  | [_, p1, _] =>
    match b64Decode p1 with
    | none => Except.error "payload b64 decode"
    | some bytes =>
      match jsonUnmarshalMap bytes with
      | none => Except.error "payload json"
      | some claims =>
        match lookupLast claims "exp" with
        | none => Except.error "no exp claim"
        | some (Json.num n) => Except.ok n
        | some _ => Except.error "exp type unsupported"
  | _ => Except.error "not a compact JWS"

/-- A Go map[string]string value; nil maps are Option-wrapped at use sites. -/
abbrev Strmap := List (String × String)

/-- Read of a possibly-nil Go string map: a missing key or a nil map reads
as the empty string. -/
def smGet (m : Option Strmap) (k : String) : String :=
  match m with
  | none => ""
  | some l => (l.lookup k).getD ""

/-- Assignment m[k] = v on a Go string map. -/
def smSet (l : Strmap) (k v : String) : Strmap :=
  (k, v) :: l.filter (fun p => p.1 != k)

/-- Modelled from the spec: the override record used to short-circuit a
request with a status code, body and headers (coprocess.ReturnOverrides, a
generated type not under src; only the fields main.go touches are carried;
proto3 scalar defaults are the zero values, message and map fields may be
absent). -/
structure ReturnOverrides where
  ResponseCode : Int
  ResponseError : String
  ResponseBody : String
  Headers : Option Strmap
  OverrideError : Bool
deriving DecidableEq

/-- Modelled from the spec: the per-request record's request part
(coprocess.MiniRequestObject): inbound header map, outbound header
assignments, and the short-circuit override record. -/
structure MiniRequestObject where
  Headers : Option Strmap
  SetHeaders : Option Strmap
  ReturnOverrides : Option ReturnOverrides
deriving DecidableEq

/-- Modelled from the spec: the session-state record, restricted to the rate
and quota fields main.go resets (coprocess.SessionState; the double-typed
fields only ever receive the integral sentinels 0 and -1 and are carried as
Int). -/
structure SessionState where
  Rate : Int
  Per : Int
  QuotaMax : Int
  QuotaRemaining : Int
  QuotaRenewalRate : Int
  LastUpdated : String
  IdExtractorDeadline : Int
deriving DecidableEq

/-- Modelled from the spec: the host's per-request record (coprocess.Object)
with the fields main.go reads and writes: hook name, request record, metadata
map and session record; pointer and map fields may be absent (nil). -/
structure Object where
  HookName : String
  Request : Option MiniRequestObject
  Metadata : Option Strmap
  Session : Option SessionState
deriving DecidableEq

/-- The zero coprocess.MiniRequestObject allocated by unauthorized. -/
def emptyRequest : MiniRequestObject :=
  { Headers := none, SetHeaders := none, ReturnOverrides := none }

/-- The zero coprocess.ReturnOverrides allocated by unauthorized. -/
def emptyOverrides : ReturnOverrides :=
  { ResponseCode := 0, ResponseError := "", ResponseBody := "",
    Headers := none, OverrideError := false }

/-- unauthorized (main.go lines 398-418): allocate any missing request and
override records, then fill the 401 short-circuit: code 401, error and body
both the message, the WWW-Authenticate challenge header, OverrideError. -/
def unauthorized (obj : Object) (msg : String) : Object :=
  let req := obj.Request.getD emptyRequest
  let ro := req.ReturnOverrides.getD emptyOverrides
  let hs := ro.Headers.getD []
  { obj with
    Request := some
      { req with
        ReturnOverrides := some
          { ResponseCode := 401
            ResponseError := msg
            ResponseBody := msg
            Headers := some (smSet hs "WWW-Authenticate" "Bearer error=\"invalid_token\"")
            OverrideError := true } } }

/-- ensureMetadata (main.go lines 369-373). -/
def ensureMetadata (obj : Object) : Object :=
  match obj.Metadata with
  | none => { obj with Metadata := some [] }
  | some _ => obj

/-- One metadata assignment obj.Metadata[k] = v; in the source this always
follows ensureMetadata, so a nil map is read as empty. -/
def metaSet (obj : Object) (k v : String) : Object :=
  { obj with Metadata := some (smSet (obj.Metadata.getD []) k v) }

/-- ensureSession (main.go lines 375-386): allocate the session if missing
and force every modelled field to its sentinel, leaving rate limiting and
quotas disabled or unlimited. -/
def ensureSession (obj : Object) : Object :=
  { obj with
    Session := some
      { Rate := 0, Per := 0, QuotaMax := -1, QuotaRemaining := -1,
        QuotaRenewalRate := 0, LastUpdated := "", IdExtractorDeadline := 0 } }

/-- Outcome of the HTTP POST inside introspectForJWTAndExp, supplied by the
environment: a transport or timeout error, or a status with a body. -/
inductive HTTPOutcome where
  | transportErr (msg : String)
  | response (status : Int) (body : String)

/-- Result triple of introspectForJWTAndExp: a Go error, or a JWT string
(empty means token absent) with its expiry instant. -/
inductive IntroOutcome where
  | err (msg : String)
  | ok (jwt : String) (exp : Int)
deriving DecidableEq

/-- introspectForJWTAndExp (main.go lines 330-366), after the fixed request
construction: non-200 status or transport failure is an error; a 200 body is
trimmed and must look like a three-segment compact token, else the token is
reported absent; expiry-extraction failure degrades to a 30-second fallback
window from the current instant. -/
def introspectForJWTAndExp (now : Int) (h : HTTPOutcome) : IntroOutcome :=
  match h with
  | HTTPOutcome.transportErr m => IntroOutcome.err m
  | HTTPOutcome.response status body =>
    if status ≠ 200 then
      IntroOutcome.err
        ("introspection status " ++ toString status ++ ": "
          ++ goTrimSpace (String.mk (body.toList.take 512)))
    else
      let j := goTrimSpace body
      if countDots j ≠ 2 then IntroOutcome.ok "" 0
      else
        match parseJWTExp j with
        | Except.error _ => IntroOutcome.ok j (now + 30)
        | Except.ok e => IntroOutcome.ok j e

/-- The process environment of a single dispatch: the clock-skew margin, the
current instant, the key-derivation hash (sha256Hex, whose internals live in
the Go standard library and are irrelevant to every claim), and the HTTP
outcome of introspecting a given credential. -/
structure Env where
  skew : Int
  now : Int
  hash : String → String
  http : String → HTTPOutcome

/-- phantomAuthCheck (main.go lines 278-310): extract the bearer credential,
try the cache, introspect on a miss, cache the exchanged JWT with the
skew-reduced expiry, and populate metadata and session on acceptance. The
second component is the cache state after the call. -/
def phantomAuthCheck (env : Env) (st : CacheState) (obj : Object) : Object × CacheState :=
  let auth := smGet (obj.Request.bind MiniRequestObject.Headers) "Authorization"
  let opq := extractBearer auth
  if opq = "" then (unauthorized obj "Missing bearer token", st)
  else
    let key := env.hash opq
    let g := jwtCache.get st env.now key
    if g.2.1 then
      (ensureSession (metaSet (metaSet (ensureMetadata obj) "phantom_jwt" g.1) "token" opq),
        g.2.2)
    else
      match introspectForJWTAndExp env.now (env.http opq) with
      | IntroOutcome.err e =>
        (unauthorized obj ("Introspection error: " ++ e), g.2.2)
      | IntroOutcome.ok jwt exp =>
        if jwt = "" then (unauthorized obj "Token inactive or invalid", g.2.2)
        else
          let storeUntil := exp - env.skew
          let st2 := jwtCache.set env.skew g.2.2 env.now key jwt storeUntil
          (ensureSession
              (metaSet (metaSet (ensureMetadata obj) "phantom_jwt" jwt) "token" opq),
            st2)

/-- injectJwtPostKeyAuth (main.go lines 313-326): read the phantom JWT from
metadata; when absent reject 401; when present write the upstream
Authorization header. The source dereferences obj.Request without a nil
check on the success path; that Go panic is modelled as none. -/
def injectJwtPostKeyAuth (obj : Object) : Option Object :=
  let jwt := smGet obj.Metadata "phantom_jwt"
  if jwt = "" then some (unauthorized obj "JWT missing post-auth")
  else
    match obj.Request with
    | none => none
    | some req =>
      some
        { obj with
          Request := some
            { req with
              SetHeaders :=
                some (smSet (req.SetHeaders.getD []) "Authorization" ("Bearer " ++ jwt)) } }

/-- server.Dispatch (main.go lines 266-275): route on the hook name; any
other name passes the record through unchanged. The Go error result is
always nil; none models an unhandled fault (panic) in a hook. -/
def dispatch (env : Env) (st : CacheState) (obj : Object) : Option (Object × CacheState) :=
  if obj.HookName = "PhantomAuthCheck" then some (phantomAuthCheck env st obj)
  else if obj.HookName = "InjectJwtPostKeyAuth" then
    (injectJwtPostKeyAuth obj).map (fun o => (o, st))
  else some (obj, st)

/-- A key is absent after its deletion. -/
lemma lookup_mapDelete (m : CacheState) (k : String) :
    mapLookup (mapDelete m k) k = none := by
  induction m with
  | nil => rfl
  | cons x xs ih =>
    obtain ⟨a, v⟩ := x
    by_cases hx : a = k
    · show mapLookup (((a, v) :: xs).filter (fun p => p.1 != k)) k = none
      rw [List.filter_cons, if_neg (by simp [hx])]
      exact ih
    · show mapLookup (((a, v) :: xs).filter (fun p => p.1 != k)) k = none
      rw [List.filter_cons, if_pos (by simp [hx])]
      show List.lookup k ((a, v) :: mapDelete xs k) = none
      have hk : (k == a) = false := by simp [Ne.symm hx]
      simp only [List.lookup, hk]
      exact ih

/-- After a get that reports a miss, the key is absent from the returned
cache state (the lookup either found nothing or deleted an expired entry). -/
lemma get_miss_lookup (m : CacheState) (now : Int) (k : String)
    (h : (jwtCache.get m now k).2.1 = false) :
    mapLookup (jwtCache.get m now k).2.2 k = none := by
  unfold jwtCache.get at h ⊢
  cases hl : mapLookup m k with
  | none => simpa using hl
  | some ce =>
    rw [hl] at h
    by_cases hexp : now > ce.Expires
    · simpa [hexp] using lookup_mapDelete m k
    · simp [hexp] at h

/-- Each eviction scan only removes entries, exactly as many as it reports,
and never more than its budget. -/
lemma evictPass_spec (p : String × CacheEntry → Bool) :
    ∀ (b : Nat) (l : CacheState),
      (jwtCache.evictPass p b l).1.length + (jwtCache.evictPass p b l).2 = l.length ∧
      (jwtCache.evictPass p b l).2 ≤ b := by
  intro b l
  induction l generalizing b with
  | nil => cases b <;> simp [jwtCache.evictPass]
  | cons x xs ih =>
    cases b with
    | zero => simp [jwtCache.evictPass]
    | succ b =>
      by_cases hx : p x = true
      · have := ih b
        simp [jwtCache.evictPass, hx]
        omega
      · have := ih (b + 1)
        simp [jwtCache.evictPass, hx]
        omega

/-- The unconditional eviction scan removes exactly its budget, or everything. -/
lemma evictPass_true_count :
    ∀ (b : Nat) (l : CacheState),
      (jwtCache.evictPass (fun _ => true) b l).2 = min b l.length := by
  intro b l
  induction l generalizing b with
  | nil => cases b <;> simp [jwtCache.evictPass]
  | cons x xs ih =>
    cases b with
    | zero => simp [jwtCache.evictPass]
    | succ b =>
      have := ih b
      simp [jwtCache.evictPass]
      omega

/-- When the cache strictly exceeds a positive cap, enforceCap brings the
entry count exactly to the cap. -/
lemma enforceCap_length_over (cm now : Int) (m : CacheState)
    (h0 : 0 < cm) (hover : cm < (m.length : Int)) :
    ((jwtCache.enforceCap cm now m).length : Int) = cm := by
  unfold jwtCache.enforceCap
  rw [if_neg (by omega), if_neg (by omega)]
  dsimp only
  have h1 := evictPass_spec (fun p => jwtCache.nearlyDead now p.2)
    ((m.length : Int) - cm).toNat m
  set r1 := jwtCache.evictPass (fun p => jwtCache.nearlyDead now p.2)
    ((m.length : Int) - cm).toNat m with hr1
  have h2 := evictPass_spec (fun _ => true) (((m.length : Int) - cm).toNat - r1.2) r1.1
  have h3 := evictPass_true_count (((m.length : Int) - cm).toNat - r1.2) r1.1
  omega

/-- Claim C1, counterexample: with skew 30 and a set of expiry now + 60
(now = 0), a get at now + 31 still returns the entry, found, contrary to the
claimed not-found: get applies no skew and the stored expiry is now + 60. -/
theorem claimC1_counterexample :
    jwtCache.get (jwtCache.set 30 [] 0 "k" "J" 60) 31 "k"
      = ("J", true, [("k", ⟨"J", 60⟩)]) := by rfl

/-- Claim C1, amended: after set(k, J, now + 60) with skew 30, a get at
now + 29 returns (J, true); a get returns (J, true) at every instant up to
and including now + 60 (in particular at now + 31), and reports not-found
exactly at the instants strictly after now + 60. -/
theorem claimC1_amended (now : Int) (k : String) (t : Int) :
    jwtCache.get (jwtCache.set 30 [] now k "J" (now + 60)) (now + 29) k
      = ("J", true, [(k, ⟨"J", now + 60⟩)]) ∧
    (t ≤ now + 60 →
      jwtCache.get (jwtCache.set 30 [] now k "J" (now + 60)) t k
        = ("J", true, [(k, ⟨"J", now + 60⟩)])) ∧
    (now + 60 < t →
      jwtCache.get (jwtCache.set 30 [] now k "J" (now + 60)) t k = ("", false, [])) := by
  have hins : jwtCache.set 30 [] now k "J" (now + 60) = [(k, ⟨"J", now + 60⟩)] := by
    unfold jwtCache.set
    rw [if_pos (by omega)]
    rfl
  rw [hins]
  unfold jwtCache.get
  refine ⟨by simp [mapLookup, List.lookup], fun ht => ?_, fun ht => ?_⟩
  · have hc : ¬ (t > now + 60) := by omega
    simp [mapLookup, List.lookup, hc]
  · simp [mapLookup, List.lookup, mapDelete, ht]

/-- Claim C1 amended, witness at now = 0: found at 29 and at 31, not-found
at 61. -/
theorem claimC1_amended_witness :
    jwtCache.get (jwtCache.set 30 [] 0 "k" "J" 60) 29 "k"
      = ("J", true, [("k", ⟨"J", 60⟩)]) ∧
    jwtCache.get (jwtCache.set 30 [] 0 "k" "J" 60) 31 "k"
      = ("J", true, [("k", ⟨"J", 60⟩)]) ∧
    jwtCache.get (jwtCache.set 30 [] 0 "k" "J" 60) 61 "k" = ("", false, []) :=
  ⟨(claimC1_amended 0 "k" 31).1,
    (claimC1_amended 0 "k" 31).2.1 (by decide),
    (claimC1_amended 0 "k" 61).2.2 (by decide)⟩

/-- Claim C5: a set whose expiry reduced by the skew has already passed is a
silent no-op: the state is unchanged and every subsequent get is unaffected. -/
theorem claimC5_set_noop (m : CacheState) (skew now : Int) (k j : String) (exp : Int)
    (h : exp - skew ≤ now) :
    jwtCache.set skew m now k j exp = m ∧
    ∀ t key, jwtCache.get (jwtCache.set skew m now k j exp) t key
      = jwtCache.get m t key := by
  have hc : ¬ (now + skew < exp) := by omega
  refine ⟨by simp [jwtCache.set, hc], fun t key => by simp [jwtCache.set, hc]⟩

/-- Claim C5, witness with skew 30, exp = now (the spec's property-check
instance). -/
theorem claimC5_set_noop_witness :
    jwtCache.set 30 [("a", ⟨"K", 500⟩)] 100 "k" "J" 100 = [("a", ⟨"K", 500⟩)] ∧
    ∀ t key, jwtCache.get (jwtCache.set 30 [("a", ⟨"K", 500⟩)] 100 "k" "J" 100) t key
      = jwtCache.get [("a", ⟨"K", 500⟩)] t key :=
  claimC5_set_noop [("a", ⟨"K", 500⟩)] 30 100 "k" "J" 100 (by decide)

/-- Claim C7: bearer extraction on the four specified inputs: whitespace and
case tolerance around the Bearer scheme, and empty output for an empty or
non-Bearer header. -/
theorem claimC7_extractBearer :
    extractBearer "Bearer   abc.def.ghi  " = "abc.def.ghi" ∧
    extractBearer "bearer xyz" = "xyz" ∧
    extractBearer "" = "" ∧
    extractBearer "Basic xyz" = "" :=
  ⟨rfl, rfl, rfl, rfl⟩

/-- Claim C6: starting from more than cacheMax entries with a positive
cacheMax, one reclamation pass (expired sweep, then capacity enforcement)
leaves at most cacheMax entries. -/
theorem claimC6_capacity_bound (cm now1 now2 : Int) (m : CacheState)
    (h0 : 0 < cm) (_hN : cm < (m.length : Int)) :
    ((jwtCache.enforceCap cm now2 (jwtCache.purgeExpired now1 m)).length : Int) ≤ cm := by
  by_cases h : ((jwtCache.purgeExpired now1 m).length : Int) ≤ cm
  · unfold jwtCache.enforceCap
    rw [if_neg (by omega), if_pos h]
    exact h
  · rw [enforceCap_length_over cm now2 _ h0 (by omega)]

/-- Claim C6, witness: cap 1, two fresh entries, one pass leaves at most one. -/
theorem claimC6_capacity_bound_witness :
    ((jwtCache.enforceCap 1 0
        (jwtCache.purgeExpired 0 [("a", ⟨"J", 1000⟩), ("b", ⟨"K", 1000⟩)])).length : Int) ≤ 1 :=
  claimC6_capacity_bound 1 0 0 [("a", ⟨"J", 1000⟩), ("b", ⟨"K", 1000⟩)]
    (by decide) (by decide)

/-- A cache of 10001 distinct keys, all far from expiring. -/
def bigState : CacheState :=
  (List.range 10001).map (fun i => (Nat.repr i, ⟨"J", 1000000⟩))

/-- Claim C2, counterexample: configuring the capacity to the negative value
-1 does not disable enforcement: intFromEnv falls back to the default 10000,
and the capacity-enforcement step then does remove entries from a cache
holding 10001 entries. -/
theorem claimC2_counterexample :
    cacheMaxOf "-1" = 10000 ∧
    jwtCache.enforceCap (cacheMaxOf "-1") 0 bigState ≠ bigState := by
  have hcm : cacheMaxOf "-1" = 10000 := by decide
  have hlen : (bigState.length : Int) = 10001 := by
    simp [bigState]
  refine ⟨hcm, fun h => ?_⟩
  have := enforceCap_length_over (cacheMaxOf "-1") 0 bigState
    (by rw [hcm]; decide) (by omega)
  rw [h] at this
  omega

/-- Claim C2, amended: a configured value of 0 disables capacity enforcement
(and enforceCap removes nothing whenever cacheMax is not positive), but a
negative configured value is replaced by the default 10000, leaving
enforcement enabled. -/
theorem claimC2_amended :
    (∀ (cm now : Int) (m : CacheState), cm ≤ 0 → jwtCache.enforceCap cm now m = m) ∧
    cacheMaxOf "0" = 0 ∧
    (∀ (s : String) (i : Int), goAtoi s = some i → i < 0 → cacheMaxOf s = 10000) := by
  refine ⟨fun cm now m h => by simp [jwtCache.enforceCap, h], by decide, ?_⟩
  intro s i hg hi
  unfold cacheMaxOf intFromEnv
  by_cases hs : s = ""
  · rw [hs] at hg
    simp [goAtoi, digitsVal] at hg
  · rw [if_neg hs, hg]
    simp [hi]

/-- Claim C2 amended, witness: enforceCap with cap 0 leaves a cache alone,
and the configured value -7 yields the default capacity. -/
theorem claimC2_amended_witness :
    jwtCache.enforceCap 0 0 [("k", ⟨"J", 5⟩)] = [("k", ⟨"J", 5⟩)] ∧
    cacheMaxOf "-7" = 10000 :=
  ⟨claimC2_amended.1 0 0 [("k", ⟨"J", 5⟩)] (by decide),
    claimC2_amended.2.2 "-7" (-7) (by decide) (by decide)⟩

/-- Claim C3, counterexample: a three-segment token whose middle segment
base64url-decodes to a record whose exp is the JSON string "1700000000" is
rejected with the unsupported-type failure, not accepted: json.Unmarshal maps
a JSON string to a Go string, which no case of the type switch accepts. -/
theorem claimC3_counterexample :
    parseJWTExp "h.eyJleHAiOiIxNzAwMDAwMDAwIn0.s"
      = Except.error "exp type unsupported" := by rfl

/-- Claim C3, amended: for every three-segment token whose decoded middle
segment is a JSON record whose exp field is a textual number (a JSON
string), the extractor reports the unsupported-type failure; only plain JSON
numbers are accepted. -/
theorem claimC3_amended (jwt : String) (a p1 c : List Char) (bytes : List Nat)
    (claims : List (String × Json)) (s : String)
    (hsplit : splitOnDot jwt.toList = [a, p1, c])
    (hb64 : b64Decode p1 = some bytes)
    (hjson : jsonUnmarshalMap bytes = some claims)
    (hexp : lookupLast claims "exp" = some (Json.str s)) :
    parseJWTExp jwt = Except.error "exp type unsupported" := by
  unfold parseJWTExp
  rw [hsplit]
  simp only [hb64, hjson, hexp]

/-- Claim C3 amended, witness on the concrete token of the counterexample. -/
theorem claimC3_amended_witness :
    parseJWTExp "h.eyJleHAiOiIxNzAwMDAwMDAwIn0.s"
      = Except.error "exp type unsupported" ∧
    lookupLast [("exp", Json.str "1700000000")] "exp"
      = some (Json.str "1700000000") :=
  ⟨claimC3_amended "h.eyJleHAiOiIxNzAwMDAwMDAwIn0.s"
      "h".toList "eyJleHAiOiIxNzAwMDAwMDAwIn0".toList "s".toList
      [123, 34, 101, 120, 112, 34, 58, 34, 49, 55, 48, 48, 48, 48, 48, 48, 48, 48, 34, 125]
      [("exp", Json.str "1700000000")] "1700000000"
      (by rfl) (by rfl) (by rfl) (by rfl),
    rfl⟩

/-- The failing input of claim C4: a post-key-auth invocation whose request
record is absent while its metadata carries a non-empty phantom JWT. -/
def c4Object : Object :=
  { HookName := "InjectJwtPostKeyAuth", Request := none,
    Metadata := some [("phantom_jwt", "J")], Session := none }

/-- Claim C4, failing input: on an object with no request record and a
non-empty phantom_jwt, the post-key-auth hook dereferences the absent
request record (a nil-pointer panic in the source, modelled as none) instead
of returning a record. -/
theorem claimC4_inject_fault : injectJwtPostKeyAuth c4Object = none := by rfl

/-- Claim C8: dispatch of any hook name other than the two recognized ones
returns the input object and cache state unchanged and reports no fault. -/
theorem claimC8_dispatch_passthrough (env : Env) (st : CacheState) (obj : Object)
    (h1 : obj.HookName ≠ "PhantomAuthCheck") (h2 : obj.HookName ≠ "InjectJwtPostKeyAuth") :
    dispatch env st obj = some (obj, st) := by
  simp [dispatch, h1, h2]

/-- A concrete environment for witnesses: skew 30, instant 0, identity key
derivation, introspection answering 200 with an unparseable three-segment
body. -/
def envW : Env :=
  { skew := 30, now := 0, hash := fun s => s,
    http := fun _ => HTTPOutcome.response 200 "a.b.c" }

/-- An object carrying an unrecognized hook name, for the C8 witness. -/
def c8Object : Object :=
  { HookName := "CustomMiddleware", Request := none, Metadata := none, Session := none }

/-- Claim C8, witness on the hook name CustomMiddleware. -/
theorem claimC8_dispatch_passthrough_witness :
    dispatch envW [] c8Object = some (c8Object, []) :=
  claimC8_dispatch_passthrough envW [] c8Object (by decide) (by decide)

/-- Whether a possibly-nil Go string map has a binding for the key. -/
def hasKey (m : Option Strmap) (k : String) : Bool :=
  match m with
  | none => false
  | some l => l.any (fun p => p.1 == k)

/-- The observable shape of every rejection: a short-circuit override with
status 401, the challenge header, and the message as both error and body. -/
def rejectionShape (o : Object) (msg : String) : Prop :=
  ∃ req ro, o.Request = some req ∧ req.ReturnOverrides = some ro ∧
    ro.ResponseCode = 401 ∧ ro.ResponseError = msg ∧ ro.ResponseBody = msg ∧
    ro.OverrideError = true ∧
    smGet ro.Headers "WWW-Authenticate" = "Bearer error=\"invalid_token\""

/-- unauthorized always produces the rejection shape. -/
lemma unauthorized_shape (obj : Object) (msg : String) :
    rejectionShape (unauthorized obj msg) msg := by
  refine ⟨_, _, rfl, rfl, rfl, rfl, rfl, rfl, ?_⟩
  simp [smGet, smSet, List.lookup]

/-- The accept path of the auth-check hook leaves a phantom_jwt binding in
the metadata. -/
lemma accept_has_phantom (obj : Object) (j t : String) :
    hasKey (ensureSession
        (metaSet (metaSet (ensureMetadata obj) "phantom_jwt" j) "token" t)).Metadata
      "phantom_jwt" = true := by
  simp [ensureSession, metaSet, ensureMetadata, hasKey, smSet]

/-- Claim C9: every rejection of either hook short-circuits with status 401,
the WWW-Authenticate challenge, and the reason as both error and body: the
unauthorized record always has that shape, and each hook either accepts (the
auth-check leaves a phantom_jwt binding; the inject hook writes the upstream
Authorization header) or returns exactly an unauthorized record. -/
theorem claimC9_rejections (env : Env) (st : CacheState) (obj : Object) (msg : String) :
    rejectionShape (unauthorized obj msg) msg ∧
    (hasKey (phantomAuthCheck env st obj).1.Metadata "phantom_jwt" = true ∨
      ∃ m, (phantomAuthCheck env st obj).1 = unauthorized obj m ∧
        rejectionShape (phantomAuthCheck env st obj).1 m) ∧
    (∀ o, injectJwtPostKeyAuth obj = some o →
      (∃ m, o = unauthorized obj m ∧ rejectionShape o m) ∨
        smGet (o.Request.bind MiniRequestObject.SetHeaders) "Authorization"
          = "Bearer " ++ smGet obj.Metadata "phantom_jwt") := by
  refine ⟨unauthorized_shape obj msg, ?_, ?_⟩
  · unfold phantomAuthCheck
    by_cases h1 :
        extractBearer (smGet (obj.Request.bind MiniRequestObject.Headers) "Authorization") = ""
    · rw [if_pos h1]
      exact Or.inr ⟨_, rfl, unauthorized_shape obj _⟩
    · rw [if_neg h1]
      by_cases h2 :
          (jwtCache.get st env.now
            (env.hash (extractBearer
              (smGet (obj.Request.bind MiniRequestObject.Headers) "Authorization")))).2.1 = true
      · rw [if_pos h2]
        exact Or.inl (accept_has_phantom obj _ _)
      · rw [if_neg h2]
        cases hi : introspectForJWTAndExp env.now
            (env.http (extractBearer
              (smGet (obj.Request.bind MiniRequestObject.Headers) "Authorization"))) with
        | err e => exact Or.inr ⟨_, rfl, unauthorized_shape obj _⟩
        | ok jwt exp =>
          dsimp only
          by_cases h3 : jwt = ""
          · rw [if_pos h3]
            exact Or.inr ⟨_, rfl, unauthorized_shape obj _⟩
          · rw [if_neg h3]
            exact Or.inl (accept_has_phantom obj _ _)
  · intro o ho
    unfold injectJwtPostKeyAuth at ho
    by_cases h1 : smGet obj.Metadata "phantom_jwt" = ""
    · rw [if_pos h1] at ho
      cases ho
      exact Or.inl ⟨_, rfl, unauthorized_shape obj _⟩
    · rw [if_neg h1] at ho
      cases hr : obj.Request with
      | none => rw [hr] at ho; cases ho
      | some req =>
        rw [hr] at ho
        cases ho
        exact Or.inr (by simp [smGet, smSet, List.lookup])

/-- The accepted request object for the C9 and C4-adjacent witnesses: a
request record is present and the metadata carries a phantom JWT. -/
def c9Object : Object :=
  { HookName := "InjectJwtPostKeyAuth", Request := some emptyRequest,
    Metadata := some [("phantom_jwt", "J")], Session := none }

/-- The inject result on c9Object. -/
def c9Injected : Object :=
  { c9Object with
    Request := some { emptyRequest with SetHeaders := some [("Authorization", "Bearer J")] } }

/-- Claim C9, witness: the inject conjunct applied at a concrete accepted
object, and the unauthorized shape at a concrete rejection. -/
theorem claimC9_rejections_witness :
    rejectionShape (unauthorized c9Object "Missing bearer token") "Missing bearer token" ∧
    ((∃ m, c9Injected = unauthorized c9Object m ∧ rejectionShape c9Injected m) ∨
      smGet (c9Injected.Request.bind MiniRequestObject.SetHeaders) "Authorization"
        = "Bearer " ++ smGet c9Object.Metadata "phantom_jwt") :=
  ⟨(claimC9_rejections envW [] c9Object "Missing bearer token").1,
    (claimC9_rejections envW [] c9Object "Missing bearer token").2.2 c9Injected (by rfl)⟩

/-- Claim C10: when introspection succeeds but expiry extraction fails, the
fallback expiry now + 30 reduced by a skew of at least 15 never passes the
admission test of set, so the auth-check hook accepts the request while its
set call leaves the post-lookup cache state untouched and the key absent. -/
theorem claimC10_no_admission_on_fallback (env : Env) (st : CacheState) (obj : Object)
    (opq body : String)
    (hskew : 15 ≤ env.skew)
    (hopq : extractBearer (smGet (obj.Request.bind MiniRequestObject.Headers) "Authorization")
      = opq)
    (hne : opq ≠ "")
    (hmiss : (jwtCache.get st env.now (env.hash opq)).2.1 = false)
    (hhttp : env.http opq = HTTPOutcome.response 200 body)
    (hdots : countDots (goTrimSpace body) = 2)
    (hparse : ∃ msg, parseJWTExp (goTrimSpace body) = Except.error msg) :
    (phantomAuthCheck env st obj).2 = (jwtCache.get st env.now (env.hash opq)).2.2 ∧
    mapLookup (phantomAuthCheck env st obj).2 (env.hash opq) = none ∧
    hasKey (phantomAuthCheck env st obj).1.Metadata "phantom_jwt" = true := by
  obtain ⟨msg, hmsg⟩ := hparse
  have hj : goTrimSpace body ≠ "" := by
    intro h
    rw [h] at hdots
    simp [countDots] at hdots
  have hintro : introspectForJWTAndExp env.now (env.http opq)
      = IntroOutcome.ok (goTrimSpace body) (env.now + 30) := by
    rw [hhttp]
    unfold introspectForJWTAndExp
    dsimp only
    rw [if_neg (by decide), if_neg (by omega), hmsg]
  have hset : jwtCache.set env.skew (jwtCache.get st env.now (env.hash opq)).2.2 env.now
      (env.hash opq) (goTrimSpace body) (env.now + 30 - env.skew)
      = (jwtCache.get st env.now (env.hash opq)).2.2 := by
    unfold jwtCache.set
    rw [if_neg (by omega)]
  have hred : phantomAuthCheck env st obj
      = (ensureSession
          (metaSet (metaSet (ensureMetadata obj) "phantom_jwt" (goTrimSpace body)) "token" opq),
        (jwtCache.get st env.now (env.hash opq)).2.2) := by
    unfold phantomAuthCheck
    dsimp only
    rw [hopq, if_neg hne, if_neg (by simp [hmiss]), hintro]
    dsimp only
    rw [if_neg hj, hset]
  rw [hred]
  exact ⟨rfl, get_miss_lookup st env.now (env.hash opq) hmiss,
    accept_has_phantom obj _ _⟩

/-- The auth-check request object for the C10 witness: a bearer header with
the credential op. -/
def c10Object : Object :=
  { HookName := "PhantomAuthCheck",
    Request := some { emptyRequest with Headers := some [("Authorization", "Bearer op")] },
    Metadata := none, Session := none }

/-- Claim C10, witness: under envW (skew 30, introspection answering 200
with the unparseable body a.b.c) the hook accepts and caches nothing. -/
theorem claimC10_no_admission_on_fallback_witness :
    (phantomAuthCheck envW [] c10Object).2 = (jwtCache.get [] envW.now (envW.hash "op")).2.2 ∧
    mapLookup (phantomAuthCheck envW [] c10Object).2 (envW.hash "op") = none ∧
    hasKey (phantomAuthCheck envW [] c10Object).1.Metadata "phantom_jwt" = true :=
  claimC10_no_admission_on_fallback envW [] c10Object "op" "a.b.c"
    (by decide) (by rfl) (by decide) (by rfl) (by rfl) (by rfl)
    ⟨"payload b64 decode", by rfl⟩

end PhantomToken
